import Mathlib

/-!
Shallow embedding of the poker-rs server (poker_protocol/src/types.rs,
poker_server/src/game.rs, poker_server/src/server.rs) in Lean 4, together
with theorems settling the claims of the specification.

Modelling conventions:
* Rust `i32` values are modelled as `Int`, with the saturating and checked
  operations (`saturating_add`, `saturating_sub`, `saturating_mul`,
  `checked_add`) made explicit against the i32 bounds.  Plain `+`/`-` in the
  source (which would panic on overflow in debug builds) are modelled as exact
  integer arithmetic.
* `HashMap<String, PlayerState>` is modelled as an association list in one
  fixed iteration order; every place the source iterates the map becomes a
  traversal of that list.  A concrete list stands for one possible iteration
  order of the hash map.
* `Vec::sort_by` / `sort_by_key` (stable sorts) are modelled by a stable
  insertion sort; `Vec::dedup` removes consecutive duplicates; `Vec::pop`
  takes the last element.
* The random shuffle in `create_deck` is modelled as the identity permutation
  (one possible outcome of the shuffle); no claim depends on the deck order.
* Channel broadcasts are I/O and carry no state; the payload of the
  `PlayerUpdates` broadcast built in `broadcast_game_state` is embedded as the
  pure function `playerUpdatesOf`.
-/

namespace Poker

/-! ## i32 arithmetic -/

def I32_MAX : Int := 2147483647

def I32_MIN : Int := -2147483648

/-- Rust `i32::saturating_add`. -/
def satAdd (a b : Int) : Int :=
  if a + b > I32_MAX then I32_MAX else if a + b < I32_MIN then I32_MIN else a + b

/-- Rust `i32::saturating_sub`. -/
def satSub (a b : Int) : Int :=
  if a - b > I32_MAX then I32_MAX else if a - b < I32_MIN then I32_MIN else a - b

/-- Rust `i32::saturating_mul`. -/
def satMul (a b : Int) : Int :=
  if a * b > I32_MAX then I32_MAX else if a * b < I32_MIN then I32_MIN else a * b

/-- Rust `i32::checked_add`. -/
def checkedAdd (a b : Int) : Option Int :=
  if a + b > I32_MAX then none else if a + b < I32_MIN then none else some (a + b)

/-- game.rs: `const MAX_POT: i32 = i32::MAX / 2`. -/
def MAX_POT : Int := 1073741823

/-- main.rs: `pub const MAX_BET_MULTIPLIER: i32 = 10`. -/
def MAX_BET_MULTIPLIER : Int := 10

/-- main.rs: `pub const MAX_BET_PER_HAND: i32 = 100000`. -/
def MAX_BET_PER_HAND : Int := 100000

/-! ## Cards (poker_protocol/src/types.rs) -/

inductive Suit where
  | clubs | diamonds | hearts | spades
deriving DecidableEq

/-- Display impl for `Suit` (unicode card-suit glyphs). -/
def Suit.str : Suit → String
  | .clubs => "♣"
  | .diamonds => "♦"
  | .hearts => "♥"
  | .spades => "♠"

inductive Rank where
  | two | three | four | five | six | seven | eight | nine | ten
  | jack | queen | king | ace
deriving DecidableEq

/-- The numeric value of a rank (the Rust enum discriminants, `rank as u8`). -/
def Rank.toNat : Rank → Nat
  | .two => 2 | .three => 3 | .four => 4 | .five => 5 | .six => 6
  | .seven => 7 | .eight => 8 | .nine => 9 | .ten => 10
  | .jack => 11 | .queen => 12 | .king => 13 | .ace => 14

/-- types.rs: `Rank::from_u8`. -/
def Rank.fromNat : Nat → Option Rank
  | 2 => some .two | 3 => some .three | 4 => some .four | 5 => some .five
  | 6 => some .six | 7 => some .seven | 8 => some .eight | 9 => some .nine
  | 10 => some .ten | 11 => some .jack | 12 => some .queen | 13 => some .king
  | 14 => some .ace
  | _ => none

/-- Display impl for `Rank`. -/
def Rank.str : Rank → String
  | .two => "2" | .three => "3" | .four => "4" | .five => "5" | .six => "6"
  | .seven => "7" | .eight => "8" | .nine => "9" | .ten => "10"
  | .jack => "J" | .queen => "Q" | .king => "K" | .ace => "A"

structure Card where
  suit : Suit
  rank : Rank
deriving DecidableEq

/-- types.rs: `Card::to_string` renders rank then suit. -/
def Card.str (c : Card) : String := c.rank.str ++ c.suit.str

/-! ## List helpers mirroring Rust `Vec` operations -/

/-- One step of a stable insertion sort: place `x` after every `y` with
`le y x`, so that elements comparing equal keep their original order
(matching the stability of Rust `sort_by` / `sort_by_key`). -/
def insertSortedBy (le : α → α → Bool) (x : α) : List α → List α
  | [] => [x]
  | y :: ys => if le y x then y :: insertSortedBy le x ys else x :: y :: ys

/-- Stable sort (models Rust `Vec::sort`, `sort_by`, `sort_by_key`). -/
def stableSortBy (le : α → α → Bool) (l : List α) : List α :=
  l.foldl (fun acc x => insertSortedBy le x acc) []

/-- Rust `Vec::dedup`: removes consecutive duplicates. -/
def dedupConsec : List Nat → List Nat
  | [] => []
  | [x] => [x]
  | x :: y :: rest =>
      if x = y then dedupConsec (y :: rest) else x :: dedupConsec (y :: rest)

/-- Rust `Iterator::max` on a list of `i32`. -/
def maxIntList : List Int → Option Int
  | [] => none
  | x :: xs => some (xs.foldl max x)

theorem mem_insertSortedBy (le : α → α → Bool) (x a : α) (l : List α) :
    a ∈ insertSortedBy le x l ↔ a = x ∨ a ∈ l := by
  induction l with
  | nil => simp [insertSortedBy]
  | cons y ys ih =>
      simp only [insertSortedBy]
      split
      · simp only [List.mem_cons, ih]
        try tauto
      · simp only [List.mem_cons]
        try tauto

theorem mem_stableSortBy (le : α → α → Bool) (a : α) (l : List α) :
    a ∈ stableSortBy le l ↔ a ∈ l := by
  have key : ∀ (l acc : List α),
      a ∈ l.foldl (fun acc x => insertSortedBy le x acc) acc ↔ a ∈ acc ∨ a ∈ l := by
    intro l
    induction l with
    | nil => intro acc; simp
    | cons x xs ih =>
        intro acc
        simp only [List.foldl_cons, ih, mem_insertSortedBy, List.mem_cons]
        tauto
  simpa [stableSortBy] using key l []

theorem mem_dedupConsec (a : Nat) (l : List Nat) :
    a ∈ dedupConsec l ↔ a ∈ l := by
  induction l with
  | nil => simp [dedupConsec]
  | cons x xs ih =>
      cases xs with
      | nil => simp [dedupConsec]
      | cons y ys =>
          simp only [dedupConsec]
          split
          · rename_i hxy
            subst hxy
            rw [ih]
            simp
          · simp only [List.mem_cons] at ih ⊢
            rw [ih]

theorem contains_iff_mem_nat (l : List Nat) (k : Nat) :
    l.contains k = true ↔ k ∈ l := by
  induction l with
  | nil => simp
  | cons x xs ih => simp [List.contains, List.elem_cons]

/-! ## Hand evaluation (poker_protocol/src/types.rs) -/

inductive HandRank where
  | highCard | pair | twoPair | threeOfAKind | straight | flush
  | fullHouse | fourOfAKind | straightFlush
deriving DecidableEq

/-- The derived `Ord` on the Rust `HandRank` enum orders by declaration
order; this is its discriminant. -/
def HandRank.idx : HandRank → Nat
  | .highCard => 0 | .pair => 1 | .twoPair => 2 | .threeOfAKind => 3
  | .straight => 4 | .flush => 5 | .fullHouse => 6 | .fourOfAKind => 7
  | .straightFlush => 8

def HandRank.cmp (a b : HandRank) : Ordering := compare a.idx b.idx

/-- Rust `Ord` on `Vec<i32>`: lexicographic, a strict prefix is smaller. -/
def cmpIntList : List Int → List Int → Ordering
  | [], [] => .eq
  | [], _ :: _ => .lt
  | _ :: _, [] => .gt
  | x :: xs, y :: ys =>
      match compare x y with
      | .eq => cmpIntList xs ys
      | o => o

structure HandEvaluation where
  rank : HandRank
  primaryRank : Int
  tiebreakers : List Int
  description : String
deriving DecidableEq

/-- types.rs: the manual `Ord` impl on `HandEvaluation`: rank, then
primary rank, then tiebreakers. -/
def HandEvaluation.cmp (a b : HandEvaluation) : Ordering :=
  match HandRank.cmp a.rank b.rank with
  | .eq =>
      match compare a.primaryRank b.primaryRank with
      | .eq => cmpIntList a.tiebreakers b.tiebreakers
      | o => o
  | o => o

/-- types.rs helper: `Rank::from_u8(r).map(to_string).unwrap_or("Unknown")`. -/
def rankDisplayOr (r : Nat) (dflt : String) : String :=
  match Rank.fromNat r with
  | some rk => rk.str
  | none => dflt

/-- The rank values of a card list sorted descending
(`ranks.sort(); ranks.reverse()` in the source). -/
def sortedRanksDesc (cards : List Card) : List Nat :=
  (stableSortBy (fun a b => decide (a ≤ b)) (cards.map (fun c => c.rank.toNat))).reverse

/-- types.rs: `HandEvaluation::high_card`. -/
def HandEvaluation.highCardOf (cards : List Card) : HandEvaluation :=
  let ranks := sortedRanksDesc cards
  let topRank : Int := (ranks.head?.map (fun r => (r : Int))).getD 0
  { rank := .highCard
    primaryRank := topRank
    tiebreakers := (ranks.take 5).map (fun r => (r : Int))
    description := "High Card, " ++
      (match ranks.head? with
       | some r => rankDisplayOr r "None"
       | none => "None") }

/-- types.rs: `HandEvaluation::pair`. -/
def HandEvaluation.pairOf (cards : List Card) (pairRank : Nat) : HandEvaluation :=
  let ranks := sortedRanksDesc cards
  let kickers := ((ranks.filter (fun r => r ≠ pairRank)).take 3).map (fun r => (r : Int))
  { rank := .pair
    primaryRank := (pairRank : Int)
    tiebreakers := kickers
    description := "Pair of " ++ rankDisplayOr pairRank "Unknown" }

/-- types.rs: `HandEvaluation::two_pair`. -/
def HandEvaluation.twoPairOf (cards : List Card) (highPair lowPair : Nat) : HandEvaluation :=
  let ranks := sortedRanksDesc cards
  let kicker : Int :=
    ((maxIntList ((ranks.filter (fun r => r ≠ highPair ∧ r ≠ lowPair)).map
        (fun r => (r : Int))))).getD 0
  { rank := .twoPair
    primaryRank := (highPair : Int)
    tiebreakers := [(lowPair : Int), kicker]
    description := "Two Pair, " ++ rankDisplayOr highPair "Unknown" ++ " and " ++
      rankDisplayOr lowPair "Unknown" }

/-- types.rs: `HandEvaluation::three_of_a_kind`. -/
def HandEvaluation.threeOfAKindOf (cards : List Card) (threeRank : Nat) : HandEvaluation :=
  let ranks := sortedRanksDesc cards
  let kickers := ((ranks.filter (fun r => r ≠ threeRank)).take 2).map (fun r => (r : Int))
  { rank := .threeOfAKind
    primaryRank := (threeRank : Int)
    tiebreakers := kickers
    description := "Three of a Kind, " ++ rankDisplayOr threeRank "Unknown" }

/-- types.rs: `HandEvaluation::straight`.  Note the source flags the
description as a wheel when the high card is 6. -/
def HandEvaluation.straightOf (straightHigh : Nat) : HandEvaluation :=
  let descr :=
    if straightHigh = 6 then "5-4-3-2-A (Wheel)"
    else rankDisplayOr straightHigh "Unknown"
  { rank := .straight
    primaryRank := (straightHigh : Int)
    tiebreakers := [(straightHigh : Int)]
    description := "Straight, " ++ descr }

/-- types.rs: `HandEvaluation::flush`. -/
def HandEvaluation.flushOf (flushCards : List Card) : HandEvaluation :=
  let ranks := sortedRanksDesc flushCards
  { rank := .flush
    primaryRank := (ranks.head?.map (fun r => (r : Int))).getD 0
    tiebreakers := ranks.map (fun r => (r : Int))
    description := "Flush, " ++
      (match ranks.head? with
       | some r => rankDisplayOr r "None"
       | none => "None") }

/-- types.rs: `HandEvaluation::full_house`. -/
def HandEvaluation.fullHouseOf (threeRank pairRank : Nat) : HandEvaluation :=
  { rank := .fullHouse
    primaryRank := (threeRank : Int)
    tiebreakers := [(pairRank : Int)]
    description := "Full House, " ++ rankDisplayOr threeRank "Unknown" ++ " over " ++
      rankDisplayOr pairRank "Unknown" }

/-- types.rs: `HandEvaluation::four_of_a_kind`. -/
def HandEvaluation.fourOfAKindOf (cards : List Card) (fourRank : Nat) : HandEvaluation :=
  let ranks := sortedRanksDesc cards
  let kicker : Int :=
    ((maxIntList ((ranks.filter (fun r => r ≠ fourRank)).map (fun r => (r : Int))))).getD 0
  { rank := .fourOfAKind
    primaryRank := (fourRank : Int)
    tiebreakers := [kicker]
    description := "Four of a Kind, " ++ rankDisplayOr fourRank "Unknown" }

/-- types.rs: `HandEvaluation::straight_flush`. -/
def HandEvaluation.straightFlushOf (straightHigh : Nat) : HandEvaluation :=
  { rank := .straightFlush
    primaryRank := (straightHigh : Int)
    tiebreakers := [(straightHigh : Int)]
    description := "Straight Flush, " ++ rankDisplayOr straightHigh "Unknown" }

/-- Modelled from the spec: `HandEvaluation::straight_with_wheel()` is called
by `check_straight_from_cards` in game.rs but is not defined anywhere under
src/.  The spec fixes it: the ace-low wheel is a Straight with primary rank 5
and tiebreakers [5,4,3,2,1]; the repository test `test_check_wheel_straight`
additionally requires that the description contain "Wheel". -/
def straightWithWheel : HandEvaluation :=
  { rank := .straight
    primaryRank := 5
    tiebreakers := [5, 4, 3, 2, 1]
    description := "Straight, 5-4-3-2-A (Wheel)" }

end Poker

namespace Poker

/-! ## Evaluator checks (poker_server/src/game.rs) -/

/-- One insertion into the `HashMap<u8, usize>` of rank counts
(`*rank_counts.entry(rank).or_insert(0) += 1`).  The map is modelled as an
association list in first-insertion order. -/
def bumpRankCount (counts : List (Nat × Nat)) (r : Nat) : List (Nat × Nat) :=
  if counts.any (fun e => e.1 = r) then
    counts.map (fun e => if e.1 = r then (e.1, e.2 + 1) else e)
  else counts ++ [(r, 1)]

/-- The rank-count map built by every bucket-counting check in game.rs. -/
def rankCountsOf (cards : List Card) : List (Nat × Nat) :=
  cards.foldl (fun counts c => bumpRankCount counts c.rank.toNat) []

/-- game.rs: `check_four_of_a_kind`. -/
def checkFourOfAKind (cards : List Card) : Option HandEvaluation :=
  ((rankCountsOf cards).find? (fun e => e.2 = 4)).map
    (fun e => HandEvaluation.fourOfAKindOf cards e.1)

/-- game.rs: `check_full_house`.  The fold mirrors the source loop that picks
the first count ≥ 3 as the trips rank and collects the rest as pair
candidates. -/
def checkFullHouse (cards : List Card) : Option HandEvaluation :=
  let counts := rankCountsOf cards
  let acc := counts.foldl
    (fun (acc : Option Nat × List Nat) e =>
      if e.2 ≥ 3 then
        match acc.1 with
        | none => (some e.1, acc.2)
        | some t => (some t, acc.2 ++ [e.1])
      else if e.2 ≥ 2 then (acc.1, acc.2 ++ [e.1])
      else acc)
    (none, [])
  match acc.1 with
  | some threeRank =>
      match acc.2.find? (fun r => r ≠ threeRank) with
      | some pairRank => some (HandEvaluation.fullHouseOf threeRank pairRank)
      | none => none
  | none => none

/-- game.rs: `get_flush_cards`, iterating suits in declaration order. -/
def getFlushCardsIn (suits : List Suit) (cards : List Card) : Option (List Card) :=
  match suits with
  | [] => none
  | s :: rest =>
      let flushCards := cards.filter (fun c => c.suit = s)
      if flushCards.length ≥ 5 then
        some (((stableSortBy (fun a b => decide (a.rank.toNat ≤ b.rank.toNat))
            flushCards).reverse).take 5)
      else getFlushCardsIn rest cards

def getFlushCards (cards : List Card) : Option (List Card) :=
  getFlushCardsIn [Suit.clubs, Suit.diamonds, Suit.hearts, Suit.spades] cards

/-- game.rs: `check_flush`. -/
def checkFlush (cards : List Card) : Option HandEvaluation :=
  (getFlushCards cards).map HandEvaluation.flushOf

/-- The scan loop of `check_straight_from_cards`: walks the sorted,
deduplicated ranks tracking the previous rank, the current run length and the
best straight high card seen so far; the final step applies the
post-loop check against the last element. -/
def straightHighAux (prev consec high : Nat) : List Nat → Nat
  | [] => if consec ≥ 5 ∧ prev > high then prev else high
  | r :: rest =>
      if r = prev + 1 then straightHighAux r (consec + 1) high rest
      else if r ≠ prev then
        straightHighAux r 1 (if consec ≥ 5 ∧ prev > high then prev else high) rest
      else straightHighAux r consec high rest

def straightHighOf (ranks : List Nat) : Nat :=
  match ranks with
  | [] => 0
  | r :: rest => straightHighAux r 1 0 rest

/-- game.rs: `check_straight_from_cards`. -/
def checkStraightFromCards (cards : List Card) : Option HandEvaluation :=
  let ranks := dedupConsec (stableSortBy (fun a b => decide (a ≤ b))
    (cards.map (fun c => c.rank.toNat)))
  if ranks.isEmpty then none
  else
    let hasWheel := ranks.contains 2 && ranks.contains 3 && ranks.contains 4 &&
      ranks.contains 5 && ranks.contains 14
    if hasWheel then some straightWithWheel
    else
      let straightHigh := straightHighOf ranks
      if straightHigh > 0 then some (HandEvaluation.straightOf straightHigh)
      else none

/-- game.rs: `check_straight` simply delegates. -/
def checkStraight (cards : List Card) : Option HandEvaluation :=
  checkStraightFromCards cards

/-- game.rs: `check_straight_flush`. -/
def checkStraightFlush (cards : List Card) : Option HandEvaluation :=
  match getFlushCards cards with
  | none => none
  | some flushCards =>
      let ranks := flushCards.map (fun c => c.rank.toNat)
      let hasWheel := ranks.contains 2 && ranks.contains 3 && ranks.contains 4 &&
        ranks.contains 5 && ranks.contains 14
      if hasWheel then some (HandEvaluation.straightFlushOf 5)
      else (checkStraightFromCards flushCards).map
        (fun e => HandEvaluation.straightFlushOf e.primaryRank.toNat)

/-- game.rs: `check_three_of_a_kind`. -/
def checkThreeOfAKind (cards : List Card) : Option HandEvaluation :=
  ((rankCountsOf cards).find? (fun e => e.2 ≥ 3)).map
    (fun e => HandEvaluation.threeOfAKindOf cards e.1)

/-- game.rs: `check_two_pair`; the collected pair ranks are sorted
descending before taking the top two. -/
def checkTwoPair (cards : List Card) : Option HandEvaluation :=
  let pairs := ((rankCountsOf cards).filter (fun e => e.2 ≥ 2)).map (fun e => e.1)
  if pairs.length ≥ 2 then
    let sorted := stableSortBy (fun a b => decide (b ≤ a)) pairs
    some (HandEvaluation.twoPairOf cards (sorted.headD 0) ((sorted.drop 1).headD 0))
  else none

/-- game.rs: `check_pair`. -/
def checkPair (cards : List Card) : Option HandEvaluation :=
  ((rankCountsOf cards).find? (fun e => e.2 ≥ 2)).map
    (fun e => HandEvaluation.pairOf cards e.1)

/-- game.rs: `evaluate_hand` on the combined hole and community cards. -/
def evaluateCards (allCards : List Card) : HandEvaluation :=
  if allCards.isEmpty then
    { rank := .highCard, primaryRank := 0, tiebreakers := [], description := "No cards" }
  else if allCards.length < 5 then
    let topRank := (maxIntList (allCards.map (fun c => (c.rank.toNat : Int)))).getD 0
    { rank := .highCard
      primaryRank := topRank
      tiebreakers := allCards.map (fun c => (c.rank.toNat : Int))
      description := "High Card (" ++ toString allCards.length ++ " cards)" }
  else
    match checkStraightFlush allCards with
    | some e => e
    | none =>
    match checkFourOfAKind allCards with
    | some e => e
    | none =>
    match checkFullHouse allCards with
    | some e => e
    | none =>
    match checkFlush allCards with
    | some e => e
    | none =>
    match checkStraight allCards with
    | some e => e
    | none =>
    match checkThreeOfAKind allCards with
    | some e => e
    | none =>
    match checkTwoPair allCards with
    | some e => e
    | none =>
    match checkPair allCards with
    | some e => e
    | none => HandEvaluation.highCardOf allCards

end Poker

namespace Poker

/-! ## Game state (poker_server/src/game.rs) -/

inductive Street where
  | preflop | flop | turn | river | showdown
deriving DecidableEq

inductive GameStage where
  | waitingForPlayers | postingBlinds | dealingHoleCards
  | bettingRound (s : Street) | showdown | handComplete
deriving DecidableEq

inductive PlayerAction where
  | fold | check | call
  | bet (amount : Int)
  | raise (amount : Int)
  | allIn
deriving DecidableEq

/-- poker_protocol/src/errors.rs: the `ServerError` variants reachable from
the embedded operations, with their payloads. -/
inductive ServerError where
  | playerNotFound (id : String)
  | gameNotFound (id : String)
  | playerNotInGame
  | notYourTurn
  | cannotCheck
  | cannotBet
  | cannotRaise
  | invalidBet (msg : String)
  | invalidRaise (msg : String)
  | minBet (m : Int)
  | minRaise (m : Int)
  | betExceedsChips (amount chips : Int)
  | raiseInsufficientChips (required chips : Int)
  | noChips
  | invalidAmount
deriving DecidableEq

/-- poker_protocol/src/types.rs: `PlayerState`. -/
structure PlayerState where
  id : String
  name : String
  chips : Int
  currentBet : Int
  holeCards : List Card
  hasActed : Bool
  isAllIn : Bool
  isFolded : Bool
  isSittingOut : Bool
deriving DecidableEq

/-- types.rs: `PlayerState::new`. -/
def PlayerState.new (id name : String) (chips : Int) : PlayerState :=
  { id, name, chips, currentBet := 0, holeCards := [], hasActed := false,
    isAllIn := false, isFolded := false, isSittingOut := false }

/-- game.rs: `PokerGame` (the broadcast sender is I/O and is dropped). -/
structure PokerGame where
  gameId : String
  smallBlind : Int
  bigBlind : Int
  players : List PlayerState
  communityCards : List Card
  deck : List Card
  pot : Int
  sidePots : List (Int × List String)
  currentStreet : Street
  dealerPosition : Nat
  currentPlayerId : Option String
  minRaise : Int
  gameStage : GameStage
  handNumber : Int
  maxBetPerHand : Int
deriving DecidableEq

/-- game.rs: `PokerGame::new`. -/
def PokerGame.new (gameId : String) (smallBlind bigBlind : Int) : PokerGame :=
  { gameId, smallBlind, bigBlind, players := [], communityCards := [], deck := [],
    pot := 0, sidePots := [], currentStreet := .preflop, dealerPosition := 0,
    currentPlayerId := none, minRaise := satMul bigBlind 2,
    gameStage := .waitingForPlayers, handNumber := 0,
    maxBetPerHand := MAX_BET_PER_HAND }

/-- `self.players.get(player_id)` on the association-list model. -/
def findPlayer (ps : List PlayerState) (pid : String) : Option PlayerState :=
  ps.find? (fun p => p.id = pid)

/-- `self.players.get_mut(player_id)` followed by a mutation. -/
def updatePlayer (ps : List PlayerState) (pid : String) (f : PlayerState → PlayerState) :
    List PlayerState :=
  ps.map (fun p => if p.id = pid then f p else p)

/-- `HashMap::insert`: replaces an existing entry, otherwise appends in
iteration order. -/
def insertPlayer (ps : List PlayerState) (p : PlayerState) : List PlayerState :=
  if ps.any (fun q => q.id = p.id) then ps.map (fun q => if q.id = p.id then p else q)
  else ps ++ [p]

/-- game.rs: `calculate_new_pot` (reads `self.pot`, mutates nothing). -/
def calculateNewPot (g : PokerGame) (amount : Int) : Option Int :=
  if amount ≤ 0 then none
  else
    match checkedAdd g.pot amount with
    | none => none
    | some newPot => if newPot > MAX_POT then none else some newPot

/-- game.rs: `get_active_player_ids`. -/
def getActivePlayerIds (g : PokerGame) : List String :=
  (g.players.filter (fun p => p.isFolded = false ∧ p.isSittingOut = false ∧ p.chips > 0)).map
    (fun p => p.id)

/-- game.rs: `get_current_bet`. -/
def getCurrentBet (g : PokerGame) : Int :=
  (maxIntList ((g.players.filter (fun p => p.isFolded = false)).map
    (fun p => p.currentBet))).getD 0

/-- game.rs: `create_deck` builds the 52 cards suit-major; the random
shuffle is modelled as the identity permutation. -/
def freshDeck : List Card :=
  ([Suit.clubs, .diamonds, .hearts, .spades].map (fun s =>
    ([Rank.two, .three, .four, .five, .six, .seven, .eight, .nine, .ten,
      .jack, .queen, .king, .ace].map (fun r => Card.mk s r)))).flatten

/-- game.rs: `deal_card` (`Vec::pop`, i.e. taking the last card). -/
def dealCard (g : PokerGame) : Option Card × PokerGame :=
  match g.deck.getLast? with
  | none => (none, g)
  | some c => (some c, { g with deck := g.deck.dropLast })

/-- game.rs: `post_blinds`. -/
def postBlinds (g : PokerGame) : PokerGame :=
  let activeIds := getActivePlayerIds g
  if activeIds.length < 2 then g
  else
    let sbIdx := g.dealerPosition % activeIds.length
    let bbIdx := (sbIdx + 1) % activeIds.length
    let sbId := activeIds.getD sbIdx ""
    let bbId := activeIds.getD bbIdx ""
    let payBlind : Int → PlayerState → PlayerState := fun blind p =>
      { p with chips := p.chips - min blind p.chips, currentBet := min blind p.chips }
    let sbAmount :=
      match findPlayer g.players sbId with
      | some p => min g.smallBlind p.chips
      | none => 0
    let g := { g with players := updatePlayer g.players sbId (payBlind g.smallBlind) }
    let bbAmount :=
      match findPlayer g.players bbId with
      | some p => min g.bigBlind p.chips
      | none => 0
    let g := { g with players := updatePlayer g.players bbId (payBlind g.bigBlind) }
    { g with pot := sbAmount + bbAmount, minRaise := satMul g.bigBlind 2 }

/-- One card dealt to one player inside `deal_hole_cards`. -/
def dealOneTo (g : PokerGame) (pid : String) : PokerGame :=
  match findPlayer g.players pid with
  | none => g
  | some p =>
      if p.isSittingOut = false ∧ p.chips > 0 then
        match g.deck.getLast? with
        | none => g
        | some c =>
            { g with deck := g.deck.dropLast,
                     players := updatePlayer g.players pid
                       (fun q => { q with holeCards := q.holeCards ++ [c] }) }
      else g

/-- game.rs: `deal_hole_cards` (two passes over the players in iteration
order). -/
def dealHoleCards (g : PokerGame) : PokerGame :=
  let ids := g.players.map (fun p => p.id)
  ids.foldl dealOneTo (ids.foldl dealOneTo g)

/-- game.rs: `start_hand` (the trailing `broadcast_game_state` and
`request_action` calls are I/O and carry no state change). -/
def startHand (g : PokerGame) : PokerGame :=
  let resetPlayer : PlayerState → PlayerState := fun p =>
    { p with currentBet := 0, holeCards := [], hasActed := false,
             isAllIn := false, isFolded := false }
  let g := { g with handNumber := g.handNumber + 1, deck := freshDeck }
  let g := { g with players := g.players.map resetPlayer }
  let g := { g with communityCards := [], sidePots := [], pot := 0 }
  let g := postBlinds g
  let g := dealHoleCards g
  let g := { g with currentStreet := .preflop, gameStage := .bettingRound .preflop }
  let activeIds := getActivePlayerIds g
  { g with currentPlayerId :=
      match activeIds.get? 1 with
      | some pid => some pid
      | none => activeIds.head? }

/-- game.rs: `add_player` (the `PlayerConnected` broadcast is I/O). -/
def addPlayer (g : PokerGame) (pid name : String) (chips : Int) : PokerGame :=
  let g := { g with players := insertPlayer g.players (PlayerState.new pid name chips) }
  if g.players.length = 2 then startHand g else g

end Poker

namespace Poker

/-! ## Betting actions (poker_server/src/game.rs) -/

/-- game.rs: `validate_bet_amount`; returns the error of the first failing
check, mirroring `ServerResult<()>` as `Option ServerError`. -/
def validateBetAmount (g : PokerGame) (p : PlayerState) (amount currentBet pot : Int) :
    Option ServerError :=
  if amount ≤ 0 then some .invalidAmount
  else if currentBet > 0 ∧ amount < currentBet then some .cannotBet
  else if amount > p.chips then some (.betExceedsChips amount p.chips)
  else
    let maxBet := satMul pot MAX_BET_MULTIPLIER
    if amount > maxBet ∧ p.chips > maxBet then
      some (.invalidBet ("Bet exceeds maximum allowed: " ++ toString maxBet ++
        " (pot: " ++ toString pot ++ ")"))
    else if amount > g.maxBetPerHand then
      some (.invalidBet ("Bet exceeds table maximum: " ++ toString g.maxBetPerHand))
    else if amount < g.minRaise ∧ p.chips > g.minRaise then some (.minBet g.minRaise)
    else none

/-- game.rs: `validate_raise_amount`. -/
def validateRaiseAmount (g : PokerGame) (p : PlayerState) (totalBet : Int) :
    Option ServerError :=
  if totalBet ≤ p.currentBet then
    some (.invalidRaise "Raise amount must increase the bet")
  else if totalBet < g.minRaise then some (.minRaise g.minRaise)
  else
    let requiredChips := satSub totalBet p.currentBet
    if requiredChips > p.chips then some (.raiseInsufficientChips requiredChips p.chips)
    else if totalBet > g.maxBetPerHand then
      some (.invalidBet ("Raise exceeds table maximum: " ++ toString g.maxBetPerHand))
    else none

/-- The `Fold` arm of `handle_action`. -/
def handleFold (g : PokerGame) (pid : String) : Option ServerError × PokerGame :=
  let markFolded : PlayerState → PlayerState := fun p =>
    { p with isFolded := true, hasActed := true }
  (none, { g with players := updatePlayer g.players pid markFolded })

/-- The `Check` arm of `handle_action`. -/
def handleCheck (g : PokerGame) (pid : String) (currentBet : Int) :
    Option ServerError × PokerGame :=
  let playerCallAmount :=
    currentBet - (((findPlayer g.players pid).map (fun p => p.currentBet)).getD 0)
  if playerCallAmount > 0 then (some .cannotCheck, g)
  else
    let markActed : PlayerState → PlayerState := fun p => { p with hasActed := true }
    (none, { g with players := updatePlayer g.players pid markActed })

/-- The `Call` arm of `handle_action`. -/
def handleCall (g : PokerGame) (pid : String) (currentBet : Int) :
    Option ServerError × PokerGame :=
  match findPlayer g.players pid with
  | none => (some (.playerNotFound pid), g)
  | some p =>
      let callAmount := min (satSub currentBet p.currentBet) p.chips
      let applyCall : PlayerState → PlayerState := fun q =>
        let q := { q with chips := satSub q.chips callAmount,
                          currentBet := satAdd q.currentBet callAmount,
                          hasActed := true }
        if q.chips = 0 then { q with isAllIn := true } else q
      if callAmount > 0 then
        match calculateNewPot g callAmount with
        | none => (some (.invalidBet "Pot size exceeds maximum allowed"), g)
        | some newPot =>
            (none, { g with pot := newPot,
                            players := updatePlayer g.players pid applyCall })
      else (none, { g with players := updatePlayer g.players pid applyCall })

/-- The `Bet` arm of `handle_action`. -/
def handleBet (g : PokerGame) (pid : String) (amount currentBet : Int) :
    Option ServerError × PokerGame :=
  match findPlayer g.players pid with
  | none => (some (.playerNotFound pid), g)
  | some _p =>
      match validateBetAmount g _p amount currentBet g.pot with
      | some e => (some e, g)
      | none =>
          if currentBet > 0 ∧ amount < g.minRaise then (some (.minRaise g.minRaise), g)
          else
            match calculateNewPot g amount with
            | none => (some (.invalidBet "Pot size exceeds maximum allowed"), g)
            | some newPot =>
                let applyBet : PlayerState → PlayerState := fun q =>
                  let q := { q with chips := satSub q.chips amount,
                                    currentBet := amount, hasActed := true }
                  if q.chips = 0 then { q with isAllIn := true } else q
                (none, { g with players := updatePlayer g.players pid applyBet,
                                pot := newPot, minRaise := satMul amount 2 })

/-- The `Raise` arm of `handle_action`. -/
def handleRaise (g : PokerGame) (pid : String) (amount currentBet : Int) :
    Option ServerError × PokerGame :=
  let totalBet := satAdd currentBet amount
  match findPlayer g.players pid with
  | none => (some (.playerNotFound pid), g)
  | some p =>
      match validateRaiseAmount g p totalBet with
      | some e => (some e, g)
      | none =>
          let actualRaise := satSub totalBet p.currentBet
          match calculateNewPot g actualRaise with
          | none => (some (.invalidBet "Pot size exceeds maximum allowed"), g)
          | some newPot =>
              let applyRaise : PlayerState → PlayerState := fun q =>
                let q := { q with chips := satSub q.chips actualRaise,
                                  currentBet := satAdd q.currentBet actualRaise,
                                  hasActed := true }
                if q.chips = 0 then { q with isAllIn := true } else q
              (none, { g with players := updatePlayer g.players pid applyRaise,
                              pot := newPot,
                              minRaise := satMul (satAdd p.currentBet actualRaise) 2 })

/-- The `AllIn` arm of `handle_action`. -/
def handleAllIn (g : PokerGame) (pid : String) (currentBet : Int) :
    Option ServerError × PokerGame :=
  match findPlayer g.players pid with
  | none => (some (.playerNotFound pid), g)
  | some p =>
      let allInAmount := p.chips
      let newBet := satAdd p.currentBet allInAmount
      let totalBet := newBet
      if currentBet > 0 ∧ totalBet < satAdd currentBet g.minRaise then
        (some (.minRaise g.minRaise), g)
      else
        match calculateNewPot g allInAmount with
        | none => (some (.invalidBet "Pot size exceeds maximum allowed"), g)
        | some newPot =>
            let applyAllIn : PlayerState → PlayerState := fun q =>
              { q with chips := 0, currentBet := newBet, isAllIn := true,
                       hasActed := true }
            let g := { g with players := updatePlayer g.players pid applyAllIn,
                              pot := newPot }
            if newBet > currentBet then
              let potentialMinRaise := satMul newBet 2
              if potentialMinRaise > g.minRaise then
                (none, { g with minRaise := potentialMinRaise })
              else (none, g)
            else (none, g)

/-! ## Street advance, side pots, showdown (poker_server/src/game.rs) -/

/-- game.rs: `all_players_acted`. -/
def allPlayersActed (g : PokerGame) : Bool :=
  (g.players.filter (fun p => p.isFolded = false ∧ p.isAllIn = false)).all
    (fun p => p.hasActed)

/-- game.rs: `bets_equalized`. -/
def betsEqualized (g : PokerGame) : Bool :=
  let active := g.players.filter (fun p => p.isFolded = false)
  if active.isEmpty then true
  else
    let targetBet := (maxIntList (active.map (fun p => p.currentBet))).getD 0
    active.all (fun p => p.currentBet = targetBet ∨ p.isAllIn = true)

/-- game.rs: `should_advance_street`. -/
def shouldAdvanceStreet (g : PokerGame) : Bool :=
  allPlayersActed g && betsEqualized g

/-- The dealing loop inside `deal_community_cards`. -/
def dealN (g : PokerGame) : Nat → PokerGame
  | 0 => g
  | n + 1 =>
      match dealCard g with
      | (none, g1) => dealN g1 n
      | (some c, g1) => dealN { g1 with communityCards := g1.communityCards ++ [c] } n

/-- game.rs: `deal_community_cards` with its guard clauses. -/
def dealCommunityCards (g : PokerGame) (count : Nat) : PokerGame :=
  if g.currentStreet = .showdown then g
  else if count = 0 ∨ count > 5 then g
  else
    let maxCards : Nat :=
      match g.currentStreet with
      | .preflop => 5
      | .flop => 4
      | .turn => 5
      | .river => 5
      | .showdown => 0
    if g.communityCards.length + count > maxCards then g
    else dealN g count

/-- The layer-peeling loop of `calculate_side_pots`, walking the bet-sorted
non-folded players and carrying the current level. -/
def sidePotLayers (sorted : List PlayerState) (level : Int) :
    List PlayerState → List (Int × List String)
  | [] => []
  | p :: rest =>
      let excess := p.currentBet - level
      if excess > 0 then
        let eligible := (sorted.filter (fun q => q.currentBet ≥ p.currentBet)).map
          (fun q => q.id)
        (satMul excess (eligible.length : Int), eligible) ::
          sidePotLayers sorted p.currentBet rest
      else sidePotLayers sorted p.currentBet rest

/-- game.rs: `calculate_side_pots`. -/
def calculateSidePots (g : PokerGame) : List (Int × List String) :=
  let players := g.players.filter (fun p => p.isFolded = false)
  if players.isEmpty then []
  else
    let sorted := stableSortBy (fun a b => decide (a.currentBet ≤ b.currentBet)) players
    let minBet := ((sorted.head?.map (fun p => p.currentBet))).getD 0
    let mainPotPlayers := sorted.map (fun p => p.id)
    (satMul minBet (mainPotPlayers.length : Int), mainPotPlayers) ::
      sidePotLayers sorted minBet sorted

/-- game.rs: `evaluate_hand` combines the hole cards with the community
cards. -/
def evaluateHand (g : PokerGame) (p : PlayerState) : HandEvaluation :=
  evaluateCards (p.holeCards ++ g.communityCards)

/-- The `(player, evaluation)` pairs built at the start of `showdown`. -/
def handEvalsOf (g : PokerGame) : List (PlayerState × HandEvaluation) :=
  (g.players.filter (fun p => p.isFolded = false)).map (fun p => (p, evaluateHand g p))

/-- `hand_evals.sort_by(|a, b| b.1.cmp(&a.1))`: stable sort, descending by
evaluation. -/
def sortedHandEvals (g : PokerGame) : List (PlayerState × HandEvaluation) :=
  stableSortBy (fun a b => decide (HandEvaluation.cmp b.2 a.2 ≠ Ordering.gt))
    (handEvalsOf g)

/-- The winner filter in `showdown`: players whose evaluation matches the
best one in category and tiebreakers (the source compares `rank` and
`tiebreakers` but not `primary_rank`). -/
def showdownWinners (g : PokerGame) : List PlayerState :=
  match sortedHandEvals g with
  | [] => []
  | best :: _ =>
      ((sortedHandEvals g).filter (fun pe =>
        pe.2.rank = best.2.rank ∧ pe.2.tiebreakers = best.2.tiebreakers)).map
        (fun pe => pe.1)

/-- The per-pot payout loop body: equal shares with the remainder handed out
one chip at a time from the first winner in iteration order
(`i < remainder as usize` on the enumerated index). -/
def potWinnings (potAmount : Int) (ids : List String) : List (String × Int) :=
  let n : Int := (ids.length : Int)
  let perWinner := Int.tdiv potAmount n
  let remainder := Int.tmod potAmount n
  ids.enum.map (fun e => (e.2, perWinner + (if (e.1 : Int) < remainder then 1 else 0)))

/-- The `winnings_distribution` block of `showdown`. -/
def showdownDistribution (g : PokerGame) : List (String × Int) :=
  let winners := showdownWinners g
  ((calculateSidePots g).map (fun pot =>
    let potWinnerIds := (winners.filter (fun w => pot.2.contains w.id)).map
      (fun w => w.id)
    if potWinnerIds.isEmpty then []
    else potWinnings pot.1 potWinnerIds)).flatten

end Poker

namespace Poker

/-- game.rs: `end_hand`: mark the hand complete, advance the dealer among
the solvent non-sitting-out players, and either start the next hand (two or
more such players) or fall back to waiting. -/
def endHand (g : PokerGame) : PokerGame :=
  let g := { g with gameStage := .handComplete }
  let activeIds := (g.players.filter (fun p => p.chips > 0 ∧ p.isSittingOut = false)).map
    (fun p => p.id)
  let g : PokerGame :=
    if activeIds.isEmpty then g
    else
      let currentDealer :=
        match activeIds.get? (g.dealerPosition % activeIds.length) with
        | some s => some s
        | none => activeIds.head?
      match currentDealer with
      | none => g
      | some cur =>
          match activeIds.findIdx? (fun s => s = cur) with
          | none => g
          | some currentIdx =>
              { g with dealerPosition := (currentIdx + 1) % activeIds.length }
  if 2 ≤ (g.players.filter (fun p => p.chips > 0 ∧ p.isSittingOut = false)).length then
    startHand g
  else { g with gameStage := .waitingForPlayers }

/-- game.rs: `showdown`: compute side pots and winners, credit the
winnings, then end the hand.  The `ShowdownUpdate` broadcast is I/O. -/
def showdown (g : PokerGame) : PokerGame :=
  if (g.players.filter (fun p => p.isFolded = false)).isEmpty then endHand g
  else if (handEvalsOf g).isEmpty then endHand g
  else if (showdownWinners g).length = 0 then endHand g
  else
    let creditWinner : PokerGame → String × Int → PokerGame := fun gAcc wi =>
      let addWin : PlayerState → PlayerState := fun p => { p with chips := p.chips + wi.2 }
      { gAcc with players := updatePlayer gAcc.players wi.1 addWin }
    endHand ((showdownDistribution g).foldl creditWinner g)

/-- game.rs: `advance_action`. -/
def advanceAction (g : PokerGame) : PokerGame :=
  let activeIds := getActivePlayerIds g
  if activeIds.isEmpty then endHand g
  else
    let nextId : Option String :=
      match g.currentPlayerId with
      | some currentId =>
          match activeIds.findIdx? (fun s => s = currentId) with
          | some currentIdx =>
              some (activeIds.getD ((currentIdx + 1) % activeIds.length) "")
          | none => activeIds.head?
      | none => activeIds.head?
    let g : PokerGame := { g with currentPlayerId := nextId }
    if g.currentStreet ≠ .showdown ∧ shouldAdvanceStreet g then
      match g.currentStreet with
      | .preflop => dealCommunityCards { g with currentStreet := .flop } 3
      | .flop => dealCommunityCards { g with currentStreet := .turn } 1
      | .turn => dealCommunityCards { g with currentStreet := .river } 1
      | .river => showdown { g with currentStreet := .showdown }
      | .showdown => g
    else g

/-- The per-action dispatch of `handle_action`.  Each arm returns the error
(if any) paired with the game state after the arm, so that the absence of
side effects on the error paths is a provable property rather than an
assumption built into the embedding. -/
def actionBranch (g : PokerGame) (pid : String) (currentBet : Int) :
    PlayerAction → Option ServerError × PokerGame
  | .fold => handleFold g pid
  | .check => handleCheck g pid currentBet
  | .call => handleCall g pid currentBet
  | .bet amount => handleBet g pid amount currentBet
  | .raise amount => handleRaise g pid amount currentBet
  | .allIn => handleAllIn g pid currentBet

/-- After a successful arm, `handle_action` broadcasts (I/O) and calls
`advance_action`; an error arm returns immediately. -/
def finishAction : Option ServerError × PokerGame → Option ServerError × PokerGame
  | (some e, gAfter) => (some e, gAfter)
  | (none, gAfter) => (none, advanceAction gAfter)

/-- game.rs: `handle_action`: the turn check, the per-action arm, and on
success the `advance_action` epilogue. -/
def handleAction (g : PokerGame) (pid : String) (action : PlayerAction) :
    Option ServerError × PokerGame :=
  let currentBet := getCurrentBet g
  let activeIds := getActivePlayerIds g
  let isPlayerTurn : Bool :=
    match g.currentPlayerId with
    | some cid => cid = pid
    | none =>
        match activeIds.head? with
        | some fid => fid = pid
        | none => false
  if isPlayerTurn = false then (some .notYourTurn, g)
  else finishAction (actionBranch g pid currentBet action)

/-! ## The PlayerUpdates broadcast (game.rs `broadcast_game_state`) -/

/-- poker_protocol: the `PlayerUpdate` payload. -/
structure PlayerUpdate where
  playerId : String
  playerName : String
  chips : Int
  currentBet : Int
  hasActed : Bool
  isAllIn : Bool
  isFolded : Bool
  isSittingOut : Bool
  holeCards : List String
deriving DecidableEq

/-- The per-player entry built in `broadcast_game_state`: the hole cards are
replaced by the single string "[hidden]" exactly when the list is empty. -/
def toPlayerUpdate (p : PlayerState) : PlayerUpdate :=
  { playerId := p.id, playerName := p.name, chips := p.chips,
    currentBet := p.currentBet, hasActed := p.hasActed, isAllIn := p.isAllIn,
    isFolded := p.isFolded, isSittingOut := p.isSittingOut,
    holeCards := if p.holeCards.isEmpty then ["[hidden]"] else p.holeCards.map Card.str }

/-- game.rs: the `PlayerUpdates` message of `broadcast_game_state`.  It is
sent on the broadcast channel, so every connected player receives this same
list. -/
def playerUpdatesOf (g : PokerGame) : List PlayerUpdate :=
  g.players.map toPlayerUpdate

/-! ## Conserved quantity of the chip-conservation claim -/

def sumChips (g : PokerGame) : Int := (g.players.map (fun p => p.chips)).sum

def sumSidePots (g : PokerGame) : Int := (g.sidePots.map (fun sp => sp.1)).sum

/-- The quantity the specification asserts is constant within a hand. -/
def conservedQty (g : PokerGame) : Int := sumChips g + g.pot + sumSidePots g

/-! ## Session registry (poker_server/src/server.rs) -/

/-- server.rs: `ServerPlayer` (the session token, timestamps and the
outbound queue handle are I/O and are dropped). -/
structure ServerPlayer where
  name : String
  chips : Int
  connected : Bool
  seated : Bool
deriving DecidableEq

/-- server.rs: `PokerServer`; the three hash maps are modelled as
association lists. -/
structure PokerServer where
  players : List (String × ServerPlayer)
  games : List (String × PokerGame)
  playerSessions : List (String × String)
deriving DecidableEq

def lookupKey (l : List (String × α)) (k : String) : Option α :=
  (l.find? (fun e => e.1 = k)).map (fun e => e.2)

def updateKey (l : List (String × α)) (k : String) (v : α) : List (String × α) :=
  l.map (fun e => if e.1 = k then (k, v) else e)

/-- server.rs: `seat_player`.  The trailing `Connected` message and state
snapshot are sends whose failures are logged and swallowed; they do not
change the registry state. -/
def seatPlayer (s : PokerServer) (pid gid : String) : Except ServerError PokerServer :=
  match lookupKey s.players pid with
  | none => .error (.playerNotFound pid)
  | some pl =>
      match lookupKey s.games gid with
      | none => .error (.gameNotFound gid)
      | some game =>
          if pl.chips ≤ 0 then .error .noChips
          else if (s.playerSessions.find? (fun e => e.1 = pid)).isSome then .ok s
          else
            .ok { s with
              players := updateKey s.players pid { pl with seated := true },
              games := updateKey s.games gid (addPlayer game pid pl.name pl.chips),
              playerSessions := s.playerSessions ++ [(pid, gid)] }

end Poker

namespace Poker

/-! ## Error paths leave the state unchanged -/

theorem finishAction_eq_some (r : Option ServerError × PokerGame) (e : ServerError)
    (g2 : PokerGame) (h : finishAction r = (some e, g2)) : r = (some e, g2) := by
  rcases r with ⟨oe, ga⟩
  cases oe with
  | none => simp [finishAction] at h
  | some e0 => simp only [finishAction] at h; exact h

theorem handleFold_not_err (g : PokerGame) (pid : String) (e : ServerError)
    (g2 : PokerGame) (h : handleFold g pid = (some e, g2)) : False := by
  simp [handleFold] at h

theorem handleCheck_err (g : PokerGame) (pid : String) (cb : Int) (e : ServerError)
    (g2 : PokerGame) (h : handleCheck g pid cb = (some e, g2)) : g2 = g := by
  simp only [handleCheck] at h
  split at h
  · injection h with h1 h2; exact h2.symm
  · simp at h

theorem handleCall_err (g : PokerGame) (pid : String) (cb : Int) (e : ServerError)
    (g2 : PokerGame) (h : handleCall g pid cb = (some e, g2)) : g2 = g := by
  simp only [handleCall] at h
  split at h
  · injection h with h1 h2; exact h2.symm
  · split at h
    · split at h
      · injection h with h1 h2; exact h2.symm
      · simp at h
    · simp at h

theorem handleBet_err (g : PokerGame) (pid : String) (amount cb : Int) (e : ServerError)
    (g2 : PokerGame) (h : handleBet g pid amount cb = (some e, g2)) : g2 = g := by
  simp only [handleBet] at h
  split at h
  · injection h with h1 h2; exact h2.symm
  · split at h
    · injection h with h1 h2; exact h2.symm
    · split at h
      · injection h with h1 h2; exact h2.symm
      · split at h
        · injection h with h1 h2; exact h2.symm
        · simp at h

theorem handleRaise_err (g : PokerGame) (pid : String) (amount cb : Int) (e : ServerError)
    (g2 : PokerGame) (h : handleRaise g pid amount cb = (some e, g2)) : g2 = g := by
  simp only [handleRaise] at h
  split at h
  · injection h with h1 h2; exact h2.symm
  · split at h
    · injection h with h1 h2; exact h2.symm
    · split at h
      · injection h with h1 h2; exact h2.symm
      · simp at h

theorem handleAllIn_err (g : PokerGame) (pid : String) (cb : Int) (e : ServerError)
    (g2 : PokerGame) (h : handleAllIn g pid cb = (some e, g2)) : g2 = g := by
  simp only [handleAllIn] at h
  split at h
  · injection h with h1 h2; exact h2.symm
  · split at h
    · injection h with h1 h2; exact h2.symm
    · split at h
      · injection h with h1 h2; exact h2.symm
      · split at h
        · split at h <;> simp at h
        · simp at h

/-- Claim C7: whenever `handle_action` returns an error — not-your-turn,
cannot-check, invalid or below-minimum bet, bet exceeding chips or table
maximum, pot overflow, or any other typed error — the entire game state
(all player chips, bets, cards and flags, the pot, the side pots, the
community cards, the street, the stage and the player-to-act) is exactly the
state before the call. -/
theorem claim7_error_leaves_state_unchanged (g : PokerGame) (pid : String)
    (a : PlayerAction) (e : ServerError) (g2 : PokerGame)
    (h : handleAction g pid a = (some e, g2)) : g2 = g := by
  simp only [handleAction] at h
  split at h
  · injection h with h1 h2; exact h2.symm
  · have hb := finishAction_eq_some _ _ _ h
    cases a <;> simp only [actionBranch] at hb
    case fold => exact (handleFold_not_err _ _ _ _ hb).elim
    case check => exact handleCheck_err _ _ _ _ _ hb
    case call => exact handleCall_err _ _ _ _ _ hb
    case bet amount => exact handleBet_err _ _ _ _ _ _ hb
    case raise amount => exact handleRaise_err _ _ _ _ _ _ hb
    case allIn => exact handleAllIn_err _ _ _ _ _ hb

end Poker

namespace Poker

/-! ## Concrete states used by the counterexamples and witnesses -/

/-- Two fresh 1000-chip players joining an empty 5/10 table; `add_player`
starts the hand when the second player sits down, so this state is the
hand right after the blinds (p1 small blind 5, p2 big blind 10) with the
hole cards dealt and p2 to act. -/
def gTwo : PokerGame :=
  addPlayer (addPlayer (PokerGame.new "main_table" 5 10) "p1" "P1" 1000) "p2" "P2" 1000

/-- Scenario 3 of the specification at the moment `showdown` runs: P1 went
all-in for its 50 chips holding A♠A♥, P2 and P3 are all-in for 200 holding
K♠K♥ and Q♠Q♥, the board is 7♣ 8♣ 9♣ J♦ 3♦ and the pot holds the 450
contributed chips. -/
def pSc3a : PlayerState :=
  { id := "p1", name := "P1", chips := 0, currentBet := 50,
    holeCards := [⟨.spades, .ace⟩, ⟨.hearts, .ace⟩], hasActed := true,
    isAllIn := true, isFolded := false, isSittingOut := false }

def pSc3b : PlayerState :=
  { pSc3a with
    id := "p2", name := "P2", currentBet := 200,
    holeCards := [⟨.spades, .king⟩, ⟨.hearts, .king⟩] }

def pSc3c : PlayerState :=
  { pSc3a with
    id := "p3", name := "P3", currentBet := 200,
    holeCards := [⟨.spades, .queen⟩, ⟨.hearts, .queen⟩] }

def gScenario3 : PokerGame :=
  { PokerGame.new "main_table" 5 10 with
    players := [pSc3a, pSc3b, pSc3c],
    communityCards := [⟨.clubs, .seven⟩, ⟨.clubs, .eight⟩, ⟨.clubs, .nine⟩,
      ⟨.diamonds, .jack⟩, ⟨.diamonds, .three⟩],
    pot := 450, currentStreet := .showdown, gameStage := .bettingRound .river,
    currentPlayerId := some "p1", minRaise := 400, handNumber := 1 }

/-- A showdown state in which a third player folded after contributing 100
chips: p1 (A♥K♥, a royal flush on this board) and p2 (2♠7♦) are all-in for
200 each, p3 folded its last 100 chips, the pot holds all 500 contributed
chips. -/
def pFold1 : PlayerState :=
  { id := "p1", name := "P1", chips := 0, currentBet := 200,
    holeCards := [⟨.hearts, .ace⟩, ⟨.hearts, .king⟩], hasActed := true,
    isAllIn := true, isFolded := false, isSittingOut := false }

def pFold2 : PlayerState :=
  { pFold1 with
    id := "p2", name := "P2", holeCards := [⟨.spades, .two⟩, ⟨.diamonds, .seven⟩] }

def pFold3 : PlayerState :=
  { pFold1 with
    id := "p3", name := "P3", currentBet := 100,
    holeCards := [⟨.diamonds, .eight⟩, ⟨.diamonds, .nine⟩],
    isAllIn := false, isFolded := true }

def gFoldLoss : PokerGame :=
  { PokerGame.new "main_table" 5 10 with
    players := [pFold1, pFold2, pFold3],
    communityCards := [⟨.hearts, .queen⟩, ⟨.hearts, .jack⟩, ⟨.hearts, .ten⟩,
      ⟨.clubs, .three⟩, ⟨.clubs, .four⟩],
    pot := 500, currentStreet := .showdown, gameStage := .bettingRound .river,
    currentPlayerId := some "p1", minRaise := 400, handNumber := 1 }

/-- A betting state in which the player to act (p1, 150 chips, 5 already
committed) faces a 200-chip bet: the chips are fewer than the 195 needed to
call. -/
def pShort1 : PlayerState :=
  { id := "p1", name := "P1", chips := 150, currentBet := 5, holeCards := [],
    hasActed := false, isAllIn := false, isFolded := false, isSittingOut := false }

def pShort2 : PlayerState :=
  { id := "p2", name := "P2", chips := 800, currentBet := 200, holeCards := [],
    hasActed := true, isAllIn := false, isFolded := false, isSittingOut := false }

def gShortStack : PokerGame :=
  { PokerGame.new "main_table" 5 10 with
    players := [pShort1, pShort2], pot := 215, currentPlayerId := some "p1",
    minRaise := 400, currentStreet := .preflop,
    gameStage := .bettingRound .preflop, handNumber := 1 }

/-- A registry whose single registered player (1000 chips) is already seated
at the one existing table. -/
def sSeated : PokerServer :=
  { players := [("p1", { name := "P1", chips := 1000, connected := true, seated := true })],
    games := [("main_table", PokerGame.new "main_table" 5 10)],
    playerSessions := [("p1", "main_table")] }

/-! ## C1: chip conservation -/

/-- Claim C1 (code bug): the settlement in `showdown` does not preserve
`Σ chips + pot + Σ side-pot amounts`.  At `gFoldLoss` the quantity is 500
before settlement and 900 after: the winnings are credited while the pot is
never zeroed, and only 400 of the 500 contributed chips are ever
distributed — the 100 chips of the folded player reach nobody. -/
theorem claim1_showdown_breaks_conservation :
    conservedQty gFoldLoss = 500 ∧ conservedQty (showdown gFoldLoss) = 900 ∧
    sumChips gFoldLoss = 0 ∧ sumChips (showdown gFoldLoss) = 400 ∧
    (showdown gFoldLoss).pot = 500 := by
  refine ⟨by decide, by decide, by decide, by decide, by decide⟩

/-! ## C2: side-pot awards at showdown -/

/-- Claim C2 (code bug): at the scenario-3 state the winner filter compares
only the hand category and the tiebreaker list — not the primary rank — so
the pair of aces, the pair of kings and the pair of queens (identical
kickers 11, 9, 8) all count as winners, even though the evaluations are
strictly ordered; each pot then splits among its eligible "winners": P1
receives 50, P2 receives 50 + 150 = 200, P3 receives 200, instead of the
claimed 150 / 300 / 0. -/
theorem claim2_scenario3_side_pot_award :
    (showdownWinners gScenario3).map (fun p => p.id) = ["p1", "p2", "p3"] ∧
    showdownDistribution gScenario3 =
      [("p1", 50), ("p2", 50), ("p3", 50), ("p2", 150), ("p3", 150)] ∧
    HandEvaluation.cmp (evaluateHand gScenario3 pSc3a) (evaluateHand gScenario3 pSc3b) =
      Ordering.gt ∧
    HandEvaluation.cmp (evaluateHand gScenario3 pSc3b) (evaluateHand gScenario3 pSc3c) =
      Ordering.gt := by
  refine ⟨by decide, by decide, by decide, by decide⟩

end Poker

namespace Poker

theorem finishAction_fst (r : Option ServerError × PokerGame) :
    (finishAction r).1 = r.1 := by
  rcases r with ⟨oe, ga⟩
  cases oe <;> rfl

/-- When the caller is the player-to-act, `handle_action` runs the action
arm followed by the epilogue. -/
theorem handleAction_of_turn (g : PokerGame) (pid : String) (a : PlayerAction)
    (h : g.currentPlayerId = some pid) :
    handleAction g pid a = finishAction (actionBranch g pid (getCurrentBet g) a) := by
  simp [handleAction, h]

/-! ## C4: all-in for less than the call amount -/

/-- Claim C4 (code bug): whenever the player to act has fewer chips than
`current_bet - player.current_bet` (in any state with non-negative chips,
bet and min-raise, the fields being i32 values), the `AllIn` arm rejects the
action with `MinRaise` instead of accepting it: the total
`player.current_bet + player.chips` is below the table bet, hence below
`current_bet + min_raise`, and the guard fires.  The specification (and the
repository test `test_all_in_partial_call`) requires this all-in to be
accepted with `chips = 0` and `is_all_in = true`. -/
theorem claim4_short_stack_all_in_rejected (g : PokerGame) (pid : String)
    (p : PlayerState)
    (hturn : g.currentPlayerId = some pid)
    (hfind : findPlayer g.players pid = some p)
    (hchips : 0 ≤ p.chips) (hbet : 0 ≤ p.currentBet) (hmr : 0 ≤ g.minRaise)
    (hcb : getCurrentBet g ≤ I32_MAX)
    (hshort : p.chips < getCurrentBet g - p.currentBet) :
    handleAction g pid PlayerAction.allIn = (some (ServerError.minRaise g.minRaise), g) := by
  have hcb' : getCurrentBet g ≤ 2147483647 := by simpa [I32_MAX] using hcb
  have hsum : p.currentBet + p.chips < getCurrentBet g := by omega
  have hcbpos : 0 < getCurrentBet g := by omega
  have hNewBet : satAdd p.currentBet p.chips = p.currentBet + p.chips := by
    unfold satAdd
    have h1 : ¬(p.currentBet + p.chips > I32_MAX) := by
      simp only [I32_MAX]; omega
    have h2 : ¬(p.currentBet + p.chips < I32_MIN) := by
      simp only [I32_MIN]; omega
    rw [if_neg h1, if_neg h2]
  have hsat2 : getCurrentBet g ≤ satAdd (getCurrentBet g) g.minRaise := by
    unfold satAdd
    split
    · simp only [I32_MAX]; omega
    · split
      · rename_i hno hlow
        simp only [I32_MIN] at hlow
        omega
      · omega
  rw [handleAction_of_turn g pid _ hturn]
  simp only [actionBranch, handleAllIn, hfind]
  rw [if_pos ⟨hcbpos, by rw [hNewBet]; omega⟩]
  rfl

/-- Witness for C4 at the concrete short-stack state: p1 holds 150 chips
against a 200-chip table bet (5 already committed, min-raise 400) and the
all-in comes back as a `MinRaise` error with the state unchanged. -/
theorem claim4_witness :
    gShortStack.currentPlayerId = some "p1" ∧
    findPlayer gShortStack.players "p1" = some pShort1 ∧
    pShort1.chips < getCurrentBet gShortStack - pShort1.currentBet ∧
    handleAction gShortStack "p1" PlayerAction.allIn =
      (some (ServerError.minRaise 400), gShortStack) := by
  refine ⟨rfl, by decide, by decide, ?_⟩
  exact claim4_short_stack_all_in_rejected gShortStack "p1" pShort1 rfl (by decide)
    (by decide) (by decide) (by decide) (by decide) (by decide)

end Poker

namespace Poker

/-! ## C9: the pot-proportional cap on opening bets -/

/-- Claim C9: beyond the documented limits, `validate_bet_amount` enforces
`MAX_BET_MULTIPLIER = 10`: an opening bet (table current bet 0) with
`amount > 10 * pot` by a player whose chips also exceed `10 * pot` is
rejected with `InvalidBet`, even when the amount is positive, within the
chips of the player, within the table maximum and at least the min-raise. -/
theorem claim9_pot_cap_rejects_bet (g : PokerGame) (pid : String) (p : PlayerState)
    (amount : Int)
    (hturn : g.currentPlayerId = some pid)
    (hfind : findPlayer g.players pid = some p)
    (hcb : getCurrentBet g = 0)
    (hpot : 0 ≤ g.pot)
    (hsat : satMul g.pot MAX_BET_MULTIPLIER = 10 * g.pot)
    (hamt : 10 * g.pot < amount)
    (hchips10 : 10 * g.pot < p.chips)
    (hchips : amount ≤ p.chips)
    (hmax : amount ≤ g.maxBetPerHand)
    (hmr : g.minRaise ≤ amount) :
    handleAction g pid (PlayerAction.bet amount) =
      (some (ServerError.invalidBet ("Bet exceeds maximum allowed: " ++
        toString (satMul g.pot MAX_BET_MULTIPLIER) ++ " (pot: " ++
        toString g.pot ++ ")")), g) := by
  have h0 : ¬(amount ≤ 0) := by omega
  have h1 : ¬(getCurrentBet g > 0 ∧ amount < getCurrentBet g) := by rw [hcb]; omega
  have h2 : ¬(amount > p.chips) := by omega
  have h3 : amount > satMul g.pot MAX_BET_MULTIPLIER ∧
      p.chips > satMul g.pot MAX_BET_MULTIPLIER := by
    rw [hsat]; exact ⟨hamt, hchips10⟩
  rw [handleAction_of_turn g pid _ hturn]
  simp only [actionBranch, handleBet, hfind, validateBetAmount,
    if_neg h0, if_neg h1, if_neg h2, if_pos h3]
  rfl

/-- Witness for C9: an opening spot with a 15-chip pot (blinds folded to a
1000-chip stack): a 200-chip bet obeys every documented limit but exceeds
ten times the pot, and the engine answers `InvalidBet`. -/
def pCap1 : PlayerState :=
  { id := "p1", name := "P1", chips := 995, currentBet := 5, holeCards := [],
    hasActed := true, isAllIn := false, isFolded := true, isSittingOut := false }

def pCap2 : PlayerState :=
  { id := "p2", name := "P2", chips := 990, currentBet := 10, holeCards := [],
    hasActed := true, isAllIn := false, isFolded := true, isSittingOut := false }

def pCap3 : PlayerState :=
  { id := "p3", name := "P3", chips := 1000, currentBet := 0, holeCards := [],
    hasActed := false, isAllIn := false, isFolded := false, isSittingOut := false }

def gPotCap : PokerGame :=
  { PokerGame.new "main_table" 5 10 with
    players := [pCap1, pCap2, pCap3], pot := 15, currentPlayerId := some "p3",
    minRaise := 20, currentStreet := .preflop,
    gameStage := .bettingRound .preflop, handNumber := 1 }

theorem claim9_witness :
    getCurrentBet gPotCap = 0 ∧ gPotCap.pot = 15 ∧
    handleAction gPotCap "p3" (PlayerAction.bet 200) =
      (some (ServerError.invalidBet "Bet exceeds maximum allowed: 150 (pot: 15)"),
        gPotCap) := by
  refine ⟨by decide, rfl, ?_⟩
  exact claim9_pot_cap_rejects_bet gPotCap "p3" pCap3 200 rfl (by decide) (by decide)
    (by decide) (by decide) (by decide) (by decide) (by decide) (by decide) (by decide)

end Poker

namespace Poker

/-! ## C6: when Bet is permitted -/

/-- Counterexample to claim C6: in the fresh two-player hand the table
current bet is 10 (the big blind), yet `Bet(20)` by the big blind succeeds —
`Bet` is not restricted to states with `current_bet = 0`. -/
theorem claim6_counterexample :
    getCurrentBet gTwo = 10 ∧
    (handleAction gTwo "p2" (PlayerAction.bet 20)).1 = none := by
  exact ⟨by decide, by decide⟩

/-- Amended claim C6: `Bet(amount)` by the player to act succeeds exactly
when the amount is positive, within the chips of the player and the table
maximum, at least the table current bet and at least the min-raise whenever
the current bet is positive, at least the min-raise whenever the chips of the player
exceed the min-raise, not beyond the pot-multiplier cap (unless the
chips of the player are within that cap), and the pot stays within `MAX_POT`. -/
theorem claim6_bet_success_characterization (g : PokerGame) (pid : String)
    (p : PlayerState) (amount : Int)
    (hturn : g.currentPlayerId = some pid)
    (hfind : findPlayer g.players pid = some p)
    (hpot : 0 ≤ g.pot) :
    (handleAction g pid (PlayerAction.bet amount)).1 = none ↔
      (0 < amount ∧ amount ≤ p.chips ∧ amount ≤ g.maxBetPerHand ∧
       (0 < getCurrentBet g → getCurrentBet g ≤ amount ∧ g.minRaise ≤ amount) ∧
       (g.minRaise < p.chips → g.minRaise ≤ amount) ∧
       (amount ≤ satMul g.pot MAX_BET_MULTIPLIER ∨
         p.chips ≤ satMul g.pot MAX_BET_MULTIPLIER) ∧
       g.pot + amount ≤ MAX_POT) := by
  rw [handleAction_of_turn g pid _ hturn, finishAction_fst]
  have hcalc : calculateNewPot g amount =
      if 0 < amount ∧ g.pot + amount ≤ MAX_POT then some (g.pot + amount) else none := by
    simp only [calculateNewPot, checkedAdd, MAX_POT, I32_MAX, I32_MIN]
    split_ifs <;> first | rfl | omega | simp_all
  simp only [actionBranch, handleBet, hfind, validateBetAmount, hcalc, MAX_POT]
  set m := satMul g.pot MAX_BET_MULTIPLIER with hm
  split_ifs <;> simp_all <;> omega

end Poker

namespace Poker

/-- The big-blind player of `gTwo` right after the blinds were posted. -/
def pTwoB : PlayerState :=
  { id := "p2", name := "P2", chips := 990, currentBet := 10,
    holeCards := [⟨.spades, .king⟩, ⟨.spades, .jack⟩], hasActed := false,
    isAllIn := false, isFolded := false, isSittingOut := false }

theorem claim6_witness :
    gTwo.currentPlayerId = some "p2" ∧
    findPlayer gTwo.players "p2" = some pTwoB ∧
    ((handleAction gTwo "p2" (PlayerAction.bet 20)).1 = none ↔
      (0 < (20 : Int) ∧ (20 : Int) ≤ pTwoB.chips ∧ (20 : Int) ≤ gTwo.maxBetPerHand ∧
       (0 < getCurrentBet gTwo → getCurrentBet gTwo ≤ 20 ∧ gTwo.minRaise ≤ 20) ∧
       (gTwo.minRaise < pTwoB.chips → gTwo.minRaise ≤ 20) ∧
       ((20 : Int) ≤ satMul gTwo.pot MAX_BET_MULTIPLIER ∨
         pTwoB.chips ≤ satMul gTwo.pot MAX_BET_MULTIPLIER) ∧
       gTwo.pot + 20 ≤ MAX_POT)) := by
  refine ⟨rfl, by decide, ?_⟩
  exact claim6_bet_success_characterization gTwo "p2" pTwoB 20 rfl (by decide) (by decide)

/-! ## C8: seating -/

/-- Counterexample to claim C8: seating an already-seated registered player
with positive chips returns `Ok` (with the registry unchanged), not an
error. -/
theorem claim8_counterexample :
    (sSeated.playerSessions.find? (fun e => e.1 = "p1")).isSome = true ∧
    seatPlayer sSeated "p1" "main_table" = Except.ok sSeated := by
  exact ⟨rfl, rfl⟩

/-- Amended claim C8: `seat_player` fails exactly when the player id is
unregistered, the game id does not exist, or the chips of the registered player
are not positive; an already-seated player is answered with `Ok` and no
state change, not an error. -/
theorem claim8_seat_error_characterization (s : PokerServer) (pid gid : String) :
    (∃ e, seatPlayer s pid gid = Except.error e) ↔
      (lookupKey s.players pid = none ∨
        ∃ pl, lookupKey s.players pid = some pl ∧
          (lookupKey s.games gid = none ∨ pl.chips ≤ 0)) := by
  rcases hpl : lookupKey s.players pid with _ | pl <;>
    simp only [seatPlayer, hpl]
  · simp
  · rcases hg : lookupKey s.games gid with _ | game <;> simp only [hg]
    · simp
    · split_ifs with hchips hseated <;> simp_all

end Poker

namespace Poker

/-! ## C10: current_bet across streets -/

/-- Counterexample to claim C10: in the fresh two-player hand the big blind
(p2, 1000 chips at hand start, 10 already posted) plays `Bet(20)`
successfully; the `Bet` arm overwrites `current_bet` with the amount instead
of adding it, so afterwards p2 has committed 1000 - 970 = 30 chips since the
hand began while `current_bet` reads 20. -/
theorem claim10_counterexample :
    (handleAction gTwo "p2" (PlayerAction.bet 20)).1 = none ∧
    ((findPlayer gTwo.players "p2").map (fun p => (p.chips, p.currentBet))) =
      some (990, 10) ∧
    ((findPlayer (handleAction gTwo "p2" (PlayerAction.bet 20)).2.players "p2").map
      (fun p => (p.chips, p.currentBet))) = some (970, 20) ∧
    ((1000 : Int) - 970) ≠ 20 := by
  refine ⟨by decide, by decide, by decide, by decide⟩

theorem dealN_players (n : Nat) : ∀ g : PokerGame, (dealN g n).players = g.players := by
  induction n with
  | zero => intro g; rfl
  | succ n ih =>
      intro g
      simp only [dealN]
      split
      · rename_i g1 heq
        have h1 : g1.players = g.players := by
          simp only [dealCard] at heq
          split at heq
          · injection heq with h2 h3; rw [← h3]
          · simp at heq
        rw [ih g1, h1]
      · rename_i c g1 heq
        have h1 : g1.players = g.players := by
          simp only [dealCard] at heq
          split at heq
          · simp at heq
          · injection heq with h2 h3; rw [← h3]
        rw [ih]
        simpa using h1

theorem dealCommunityCards_players (g : PokerGame) (count : Nat) :
    (dealCommunityCards g count).players = g.players := by
  simp only [dealCommunityCards]
  split
  · rfl
  · split
    · rfl
    · split
      · rfl
      · exact dealN_players count g

/-- Amended claim C10: advancing from Preflop to Flop, Flop to Turn or Turn
to River never changes the `current_bet` or `has_acted` flag (only
`start_hand` resets them, and the street-advance condition is evaluated
against these carried-over values); however `current_bet` does not always
equal the chips committed since hand start, because a successful `Bet`
overwrites `current_bet` with the bet amount (claim10_counterexample). -/
theorem claim10_street_advance_preserves_bets (g : PokerGame)
    (hact : getActivePlayerIds g ≠ [])
    (hst : g.currentStreet = Street.preflop ∨ g.currentStreet = Street.flop ∨
      g.currentStreet = Street.turn) :
    (advanceAction g).players.map (fun p => (p.id, p.currentBet, p.hasActed)) =
      g.players.map (fun p => (p.id, p.currentBet, p.hasActed)) := by
  have hne : (getActivePlayerIds g).isEmpty = false := by
    cases h : getActivePlayerIds g with
    | nil => exact absurd h hact
    | cons a l => rfl
  simp only [advanceAction, hne, Bool.false_eq_true, if_false]
  split
  · rename_i hcond
    split
    · rw [dealCommunityCards_players]
    · rw [dealCommunityCards_players]
    · rw [dealCommunityCards_players]
    · rename_i hriver
      rcases hst with h | h | h <;> simp_all
    · rename_i hsd
      rcases hst with h | h | h <;> simp_all
  · rfl

theorem claim10_witness :
    getActivePlayerIds gTwo ≠ [] ∧ gTwo.currentStreet = Street.preflop ∧
    (advanceAction gTwo).players.map (fun p => (p.id, p.currentBet, p.hasActed)) =
      gTwo.players.map (fun p => (p.id, p.currentBet, p.hasActed)) := by
  refine ⟨by decide, by decide, ?_⟩
  exact claim10_street_advance_preserves_bets gTwo (by decide) (Or.inl (by decide))

end Poker

namespace Poker

/-! ## C3: hole-card visibility in PlayerUpdates broadcasts -/

/-- Counterexample to claim C3: in the fresh two-player hand (street
Preflop, well before Showdown) the single `PlayerUpdates` message that
`broadcast_game_state` sends to every receiver carries the actual
hole cards of both players, not "[hidden]". -/
theorem claim3_counterexample :
    gTwo.currentStreet = Street.preflop ∧
    (playerUpdatesOf gTwo).map (fun u => (u.playerId, u.holeCards)) =
      [("p1", ["A♠", "Q♠"]), ("p2", ["K♠", "J♠"])] ∧
    (["K♠", "J♠"] : List String) ≠ ["[hidden]"] := by
  refine ⟨by decide, by decide, by decide⟩

/-- Amended claim C3: the `PlayerUpdates` broadcast is identical for every
receiver, and the entry of a player reads "[hidden]" exactly when the hole-card
list of that player is empty; any player holding cards has the actual card
strings broadcast to all players, on every street. -/
theorem claim3_hole_cards_broadcast_in_clear (g : PokerGame) (p : PlayerState)
    (hp : p ∈ g.players) (hne : p.holeCards ≠ []) :
    toPlayerUpdate p ∈ playerUpdatesOf g ∧
    (toPlayerUpdate p).holeCards = p.holeCards.map Card.str := by
  constructor
  · exact List.mem_map_of_mem toPlayerUpdate hp
  · simp only [toPlayerUpdate]
    rw [if_neg]
    simp [List.isEmpty_iff, hne]

theorem claim3_witness :
    pTwoB ∈ gTwo.players ∧ pTwoB.holeCards ≠ [] ∧
    toPlayerUpdate pTwoB ∈ playerUpdatesOf gTwo ∧
    (toPlayerUpdate pTwoB).holeCards = pTwoB.holeCards.map Card.str := by
  have h := claim3_hole_cards_broadcast_in_clear gTwo pTwoB (by decide) (by decide)
  exact ⟨by decide, by decide, h.1, h.2⟩

end Poker

namespace Poker

/-! ## C5: the wheel straight -/

/-- Claim C5: for any 5 to 7 cards whose ranks include A, 2, 3, 4, 5 with no
five consecutive ranks topping higher, `check_straight_from_cards` answers
the wheel: a Straight with primary rank 5 and tiebreakers [5, 4, 3, 2, 1],
strictly below the evaluation of the straight 2-3-4-5-6.  (The wheel value
itself is `straightWithWheel`, modelled from the spec because
`HandEvaluation::straight_with_wheel` is not defined under src/.) -/
theorem claim5_wheel_straight (cards : List Card)
    (hlen5 : 5 ≤ cards.length) (hlen7 : cards.length ≤ 7)
    (hA : 14 ∈ cards.map (fun c => c.rank.toNat))
    (h2 : 2 ∈ cards.map (fun c => c.rank.toNat))
    (h3 : 3 ∈ cards.map (fun c => c.rank.toNat))
    (h4 : 4 ∈ cards.map (fun c => c.rank.toNat))
    (h5 : 5 ∈ cards.map (fun c => c.rank.toNat))
    (hNoHigher : ∀ hi ∈ List.range 15, 5 < hi →
      ((List.range 5).all (fun j =>
        (cards.map (fun c => c.rank.toNat)).contains (hi - j))) = false) :
    checkStraightFromCards cards = some straightWithWheel ∧
    straightWithWheel.rank = HandRank.straight ∧
    straightWithWheel.primaryRank = 5 ∧
    straightWithWheel.tiebreakers = [5, 4, 3, 2, 1] ∧
    checkStraightFromCards [⟨Suit.clubs, Rank.two⟩, ⟨Suit.diamonds, Rank.three⟩,
      ⟨Suit.hearts, Rank.four⟩, ⟨Suit.spades, Rank.five⟩, ⟨Suit.clubs, Rank.six⟩] =
      some (HandEvaluation.straightOf 6) ∧
    HandEvaluation.cmp straightWithWheel (HandEvaluation.straightOf 6) = Ordering.lt := by
  refine ⟨?_, rfl, rfl, rfl, by decide, by decide⟩
  simp only [checkStraightFromCards]
  set R := dedupConsec (stableSortBy (fun a b => decide (a ≤ b))
    (cards.map (fun c => c.rank.toNat))) with hR
  have hmem : ∀ k, k ∈ cards.map (fun c => c.rank.toNat) → R.contains k = true := by
    intro k hk
    rw [hR, contains_iff_mem_nat, mem_dedupConsec, mem_stableSortBy]
    exact hk
  have hW2 := hmem 2 h2
  have hW3 := hmem 3 h3
  have hW4 := hmem 4 h4
  have hW5 := hmem 5 h5
  have hW14 := hmem 14 hA
  have hNE : R.isEmpty = false := by
    cases hL : R with
    | nil => rw [hL] at hW2; simp at hW2
    | cons a l => rfl
  have hcond : (R.contains 2 && R.contains 3 && R.contains 4 && R.contains 5 &&
      R.contains 14) = true := by
    rw [hW2, hW3, hW4, hW5, hW14]
    rfl
  simp only [hNE, Bool.false_eq_true, if_false, hcond, if_true]

/-- Witness for C5 at the concrete wheel A♥ 2♦ 3♣ 4♠ 5♥. -/
theorem claim5_witness :
    (5 : Nat) ≤ ([⟨Suit.hearts, Rank.ace⟩, ⟨Suit.diamonds, Rank.two⟩,
      ⟨Suit.clubs, Rank.three⟩, ⟨Suit.spades, Rank.four⟩,
      ⟨Suit.hearts, Rank.five⟩] : List Card).length ∧
    checkStraightFromCards [⟨Suit.hearts, Rank.ace⟩, ⟨Suit.diamonds, Rank.two⟩,
      ⟨Suit.clubs, Rank.three⟩, ⟨Suit.spades, Rank.four⟩,
      ⟨Suit.hearts, Rank.five⟩] = some straightWithWheel ∧
    HandEvaluation.cmp straightWithWheel (HandEvaluation.straightOf 6) = Ordering.lt := by
  have h := claim5_wheel_straight [⟨Suit.hearts, Rank.ace⟩, ⟨Suit.diamonds, Rank.two⟩,
    ⟨Suit.clubs, Rank.three⟩, ⟨Suit.spades, Rank.four⟩, ⟨Suit.hearts, Rank.five⟩]
    (by decide) (by decide) (by decide) (by decide) (by decide) (by decide) (by decide)
    (by decide)
  exact ⟨by decide, h.1, h.2.2.2.2.2⟩

end Poker

namespace Poker

theorem claim7_witness :
    handleAction gTwo "p1" PlayerAction.fold =
      (some ServerError.notYourTurn, (handleAction gTwo "p1" PlayerAction.fold).2) ∧
    (handleAction gTwo "p1" PlayerAction.fold).2 = gTwo := by
  refine ⟨by decide, ?_⟩
  exact claim7_error_leaves_state_unchanged gTwo "p1" PlayerAction.fold
    ServerError.notYourTurn (handleAction gTwo "p1" PlayerAction.fold).2 (by decide)

end Poker
